import Mathlib

/-!
Verification of the connection-relay engine of the tcp-reverse-proxy
repository, as a shallow embedding in Lean 4.

The embedding covers the two revisions of the byte pump
(internal/proxy/proxy.go readAndWrite, which allocates a fresh 32 KB
buffer, and the pooled revision that borrows from a sync.Pool), the
partial-write accumulation loop, the sync.Pool borrow/release
discipline of CreateProxy, the listener factories, the accept loop of
Run, the session handler, and a small interleaving model of the
session goroutines.

Connections are modelled by scripts: a read script is the list of
results successive Read calls return, a write script the list of
results successive Write calls return.  Bytes are natural numbers.
An exhausted script models a call that blocks forever.
-/

namespace TRProxy

/-- Read-side errors distinguished by the pump: io.EOF, net.ErrClosed,
and any other error (the pump treats them alike except for logging). -/
inductive IOError where
  | eof
  | closed
  | other
deriving DecidableEq, Repr

/-- Result of one net.Conn Read call: either n bytes of data
(n = data.length, at most the buffer size) or an error. -/
inductive ReadResult where
  | ok (data : List Nat)
  | fail (e : IOError)
deriving DecidableEq, Repr

/-- Result of one net.Conn Write call: the destination accepted k
bytes, or the call returned a non-nil error.  The Go code ignores the
byte count returned together with a non-nil error, so the error case
carries no count. -/
inductive WriteResult where
  | ok (k : Nat)
  | fail
deriving DecidableEq, Repr

/-- The two ends of one pump: connToRead (src) and connToWrite (dst). -/
inductive ConnSide where
  | src
  | dst
deriving DecidableEq, Repr

/-- A half-close performed by the pump on exit: tcpConn.CloseWrite or
tcpConn.CloseRead on one of its two connections.  It is performed only
when the corresponding net.Conn is a *net.TCPConn. -/
inductive HalfCloseAct where
  | closeWriteOn (side : ConnSide)
  | closeReadOn (side : ConnSide)
deriving DecidableEq, Repr

/-- How the accumulation loop (for written < n) ended. -/
inductive WriteLoopOutcome where
  | complete
  | failed
  | blocked
deriving DecidableEq, Repr

/-- Observable trace of one run of the accumulation loop. -/
structure WriteLoopResult where
  /-- argument of each Write call, in order: buf[written:n] -/
  calls : List (List Nat)
  /-- value of the written counter at each Write call, in order -/
  writtenTrace : List Nat
  /-- bytes actually accepted by the destination, concatenated -/
  sent : List Nat
  /-- value of written when the loop ended -/
  finalWritten : Nat
  outcome : WriteLoopOutcome
  /-- unconsumed part of the write script -/
  wsRest : List WriteResult
deriving DecidableEq, Repr

/-- The partial-write accumulation loop shared by both readAndWrite
revisions (internal/proxy/proxy.go lines 52-69 and the pooled revision
lines 42-55):

for written < n:
  newWritten, writeErr := connToWrite.Write(buf[written:n])
  if writeErr != nil: exit failed
  written += newWritten

data is buf[0:n]; each Write call consumes one script entry; an
exhausted script is a Write that never returns (blocked). -/
def writeLoop : List WriteResult → List Nat → Nat → WriteLoopResult
  | [], data, written =>
    if written < data.length then ⟨[], [], [], written, .blocked, []⟩
    else ⟨[], [], [], written, .complete, []⟩
  | .fail :: rest, data, written =>
    if written < data.length then ⟨[data.drop written], [written], [], written, .failed, rest⟩
    else ⟨[], [], [], written, .complete, .fail :: rest⟩
  | .ok k :: rest, data, written =>
    if written < data.length then
      let r := writeLoop rest data (written + k)
      ⟨data.drop written :: r.calls, written :: r.writtenTrace,
        (data.drop written).take k ++ r.sent, r.finalWritten, r.outcome, r.wsRest⟩
    else ⟨[], [], [], written, .complete, .ok k :: rest⟩

/-- How one pump run ended. -/
inductive PumpExit where
  | readError (e : IOError)
  | writeFailed
  | blockedRead
  | blockedWrite
deriving DecidableEq, Repr

/-- Observable trace of one readAndWrite run. -/
structure PumpResult where
  /-- all bytes accepted by the destination, concatenated -/
  sent : List Nat
  /-- argument of every Write call, in order -/
  writeCalls : List (List Nat)
  /-- the half-close performed on exit, if any -/
  halfClose : Option HalfCloseAct
  /-- whether cancelConn() was called -/
  cancelled : Bool
  exitKind : PumpExit
  /-- unconsumed part of the read script -/
  rsRest : List ReadResult
  /-- unconsumed part of the write script -/
  wsRest : List WriteResult
deriving DecidableEq, Repr

namespace Pooled

/-- readAndWrite of the pooled revision (src/unnamed/part_000 lines
13-57).  srcTCP and dstTCP record whether connToRead resp. connToWrite
are *net.TCPConn (the type assertion used for half-close).  On a read
error: tcpConn.CloseWrite() on connToRead if it is TCP, cancelConn(),
return.  On a write error: tcpConn.CloseRead() on connToWrite if it is
TCP, cancelConn(), return.  The borrowed buffer and the watcher
goroutine are modelled separately. -/
def readAndWrite (srcTCP dstTCP : Bool) : List ReadResult → List WriteResult → PumpResult
  | [], ws => ⟨[], [], none, false, .blockedRead, [], ws⟩
  | .fail e :: rs, ws =>
    ⟨[], [], if srcTCP then some (.closeWriteOn .src) else none, true, .readError e, rs, ws⟩
  | .ok data :: rs, ws =>
    let w := writeLoop ws data 0
    match w.outcome with
    | .complete =>
      let r := readAndWrite srcTCP dstTCP rs w.wsRest
      ⟨w.sent ++ r.sent, w.calls ++ r.writeCalls, r.halfClose, r.cancelled,
        r.exitKind, r.rsRest, r.wsRest⟩
    | .failed =>
      ⟨w.sent, w.calls, if dstTCP then some (.closeReadOn .dst) else none, true,
        .writeFailed, rs, w.wsRest⟩
    | .blocked =>
      ⟨w.sent, w.calls, none, false, .blockedWrite, rs, []⟩

end Pooled

namespace Legacy

/-- readAndWrite of internal/proxy/proxy.go (lines 19-71).  Identical
loop, but on a write error the half-close is tcpConn.CloseRead() on
connToRead (the source side). -/
def readAndWrite (srcTCP dstTCP : Bool) : List ReadResult → List WriteResult → PumpResult
  | [], ws => ⟨[], [], none, false, .blockedRead, [], ws⟩
  | .fail e :: rs, ws =>
    ⟨[], [], if srcTCP then some (.closeWriteOn .src) else none, true, .readError e, rs, ws⟩
  | .ok data :: rs, ws =>
    let w := writeLoop ws data 0
    match w.outcome with
    | .complete =>
      let r := readAndWrite srcTCP dstTCP rs w.wsRest
      ⟨w.sent ++ r.sent, w.calls ++ r.writeCalls, r.halfClose, r.cancelled,
        r.exitKind, r.rsRest, r.wsRest⟩
    | .failed =>
      ⟨w.sent, w.calls, if srcTCP then some (.closeReadOn .src) else none, true,
        .writeFailed, rs, w.wsRest⟩
    | .blocked =>
      ⟨w.sent, w.calls, none, false, .blockedWrite, rs, []⟩

end Legacy

/-- The watcher goroutine spawned inside each readAndWrite (both
revisions): block on ctx.Done(), then Close() both connections. -/
def watcherOnCancel : List ConnSide := [.src, .dst]

/-- A write script respects the io.Writer contract for this run: every
Write that succeeds reports at most as many bytes as were requested.
Mirrors one run of the accumulation loop. -/
def writesWithinRequest : List WriteResult → List Nat → Nat → Bool
  | [], _, _ => true
  | .fail :: _, _, _ => true
  | .ok k :: rest, data, written =>
    if written < data.length then
      decide (k ≤ data.length - written) && writesWithinRequest rest data (written + k)
    else true

/-! ## Buffer pool

sync.Pool stores values of type any.  CreateProxy initialises it with
New = func() any { return make([]byte, 1024*cfg.bufferSize) }, so New
produces a []byte value.  The pump does
  buf := bufPool.Get().([]byte)
  defer bufPool.Put(&buf)
so Put stores a *[]byte value.  The model keeps the dynamic type of
each stored item; a Get whose item is not a []byte makes the type
assertion panic. -/

/-- A value held by the sync.Pool, tagged with its dynamic Go type.
id identifies the allocation, size is the slice length. -/
inductive PoolItem where
  | slice (id : Nat) (size : Int)
  | ptrSlice (id : Nat) (size : Int)
deriving DecidableEq, Repr

/-- State of the sync.Pool: the size New allocates, the free list, and
an allocation counter used to mark fresh buffers. -/
structure SyncPool where
  newSize : Int
  free : List PoolItem
  nextId : Nat
deriving DecidableEq, Repr

/-- bufPool.Get(): reuse a pooled item when one is available, otherwise
call New, which allocates a fresh []byte of newSize bytes. -/
def poolGetRaw (p : SyncPool) : PoolItem × SyncPool :=
  match p.free with
  | item :: rest => (item, { p with free := rest })
  | [] => (.slice p.nextId p.newSize, { p with nextId := p.nextId + 1 })

/-- The type assertion .([]byte) applied to the value Get returned:
yields the slice, or panics (none) when the value is a *[]byte. -/
def getAsByteSlice : PoolItem → Option (Nat × Int)
  | .slice id size => some (id, size)
  | .ptrSlice _ _ => none

/-- bufPool.Put(&buf): stores a pointer to the slice variable, i.e. a
value of dynamic type *[]byte. -/
def poolPutPtr (p : SyncPool) (id : Nat) (size : Int) : SyncPool :=
  { p with free := .ptrSlice id size :: p.free }

/-- One pump invocation against the pool (part_000 lines 13-16): borrow
at entry with Get().([]byte), run the copy loop, and release with the
deferred Put(&buf) on whatever exit path the loop took.  Returns the
borrowed buffer, the pump trace and the final pool, or the assertion
panic. -/
def runPumpWithPool (p : SyncPool) (srcTCP dstTCP : Bool)
    (rs : List ReadResult) (ws : List WriteResult) :
    Option ((Nat × Int) × PumpResult × SyncPool) :=
  let (item, p1) := poolGetRaw p
  match getAsByteSlice item with
  | none => none
  | some (id, size) =>
    some ((id, size), Pooled.readAndWrite srcTCP dstTCP rs ws, poolPutPtr p1 id size)

/-! ## Configuration, options and listener factories -/

/-- The config struct of the pooled revision (fields resolved by the
option functions). -/
structure Config where
  listenAddr : String
  backendAddr : String
  bufferSize : Int
  tlsEnabled : Bool
  certFilePath : String
  keyFilePath : String
deriving DecidableEq, Repr

/-- Defaults applied by CreateProxy before options run. -/
def defaultConfig : Config :=
  { listenAddr := "127.0.0.1:8080"
    backendAddr := "127.0.0.1:9000"
    bufferSize := 32
    tlsEnabled := false
    certFilePath := ""
    keyFilePath := "" }

/-- Errors produced by option functions. -/
inductive OptErr where
  | parseAddr
  | bufferSizeNonpositive
  | statFailed
deriving DecidableEq, Repr

/-- The ambient environment of the external calls the core makes:
os.Stat on a path, tls.LoadX509KeyPair on a cert/key pair, and the two
listen calls. -/
structure FsEnv where
  statOk : String → Bool
  loadOk : String → String → Bool
  tcpListenOk : String → Bool
  tlsListenOk : String → Bool

/-- WithTlSEnabled: sets the flag, never fails. -/
def WithTlSEnabled (enabled : Bool) : Config → Except OptErr Config :=
  fun cfg => .ok { cfg with tlsEnabled := enabled }

/-- WithBufferSize: rejects a non-positive size. -/
def WithBufferSize (size : Int) : Config → Except OptErr Config :=
  fun cfg => if size ≤ 0 then .error .bufferSizeNonpositive
    else .ok { cfg with bufferSize := size }

/-- WithCertFilePath: os.Stat must succeed on the path. -/
def WithCertFilePath (env : FsEnv) (path : String) : Config → Except OptErr Config :=
  fun cfg => if env.statOk path then .ok { cfg with certFilePath := path }
    else .error .statFailed

/-- WithKeyFilePath: os.Stat must succeed on the path. -/
def WithKeyFilePath (env : FsEnv) (path : String) : Config → Except OptErr Config :=
  fun cfg => if env.statOk path then .ok { cfg with keyFilePath := path }
    else .error .statFailed

/-- Sequential option application of CreateProxy: the first failing
option aborts. -/
def applyOpts : Config → List (Config → Except OptErr Config) → Except OptErr Config
  | cfg, [] => .ok cfg
  | cfg, opt :: rest =>
    match opt cfg with
    | .error e => .error e
    | .ok cfg2 => applyOpts cfg2 rest

/-- Which listener factory CreateProxy selected. -/
inductive FactoryKind where
  | tcp
  | tls
deriving DecidableEq, Repr

/-- The Proxy struct of the pooled revision: resolved config, the
buffer pool (represented by the size its New allocates) and the
selected listener factory. -/
structure Proxy where
  config : Config
  bufPoolNewSize : Int
  factory : FactoryKind
deriving DecidableEq, Repr

/-- CreateProxy (part_001 lines 18-42): apply the options to the
defaults, pick tlsListenerFactory iff tlsEnabled, and build the pool
whose New allocates 1024*cfg.bufferSize bytes.  No listener is created
and no certificate material is touched here. -/
def CreateProxy (opts : List (Config → Except OptErr Config)) : Except OptErr Proxy :=
  match applyOpts defaultConfig opts with
  | .error e => .error e
  | .ok cfg =>
    .ok { config := cfg
          bufPoolNewSize := 1024 * cfg.bufferSize
          factory := if cfg.tlsEnabled then .tls else .tcp }

/-- The pool CreateProxy builds, initially empty. -/
def Proxy.initialPool (p : Proxy) : SyncPool :=
  { newSize := p.bufPoolNewSize, free := [], nextId := 0 }

/-- Errors a listener factory can return (listener.go). -/
inductive ListenerError where
  | listenFailed
  | emptyCertOrKey
  | loadKeyPairFailed
deriving DecidableEq, Repr

/-- tcpListenerFactory (listener.go lines 12-18): net.Listen, wrapping
a failure as a listen error. -/
def tcpListenerFactory (env : FsEnv) (cfg : Config) : Except ListenerError Unit :=
  if env.tcpListenOk cfg.listenAddr then .ok () else .error .listenFailed

/-- tlsListenerFactory (listener.go lines 20-35): reject empty cert or
key path, then load the key pair, then tls.Listen. -/
def tlsListenerFactory (env : FsEnv) (cfg : Config) : Except ListenerError Unit :=
  if cfg.certFilePath = "" ∨ cfg.keyFilePath = "" then .error .emptyCertOrKey
  else if env.loadOk cfg.certFilePath cfg.keyFilePath then
    if env.tlsListenOk cfg.listenAddr then .ok () else .error .listenFailed
  else .error .loadKeyPairFailed

/-- The factory call Run performs, dispatched on the kind CreateProxy
stored. -/
def Proxy.makeListener (p : Proxy) (env : FsEnv) : Except ListenerError Unit :=
  match p.factory with
  | .tcp => tcpListenerFactory env p.config
  | .tls => tlsListenerFactory env p.config

/-! ## Session handler and accept loop -/

/-- Outcome of dialer.DialContext against the backend; failed covers
both a refusal and the 5 second timeout of the net.Dialer. -/
inductive DialResult where
  | ok
  | failed
deriving DecidableEq, Repr

/-- The timeout handed to net.Dialer in handle, in seconds. -/
def dialTimeoutSeconds : Nat := 5

/-- The I/O scripts of one session: clientTCP records whether the
accepted connection is a *net.TCPConn (a TLS listener yields a
tls.Conn instead); the backend connection always is one, being dialed
with network tcp.  rsA/wsA drive the client-to-backend pump, rsB/wsB
the backend-to-client pump. -/
structure SessionScripts where
  clientTCP : Bool
  rsA : List ReadResult
  wsA : List WriteResult
  rsB : List ReadResult
  wsB : List WriteResult
deriving Repr

/-- Observable effect of one handle call. -/
structure HandleResult where
  clientClosed : Bool
  backendClosed : Bool
  /-- traces of the pumps that were started -/
  pumpRuns : List PumpResult
  cancelConnCalled : Bool
deriving DecidableEq, Repr

/-- handle of the pooled revision (part_000 lines 59-80): derive a
child scope, defer cancelConn and client.Close, dial the backend with
the bounded timeout; on failure return at once (no pump started); on
success defer backend.Close and start the two pumps, then wait for the
scope.  handle returns nothing: no error reaches its caller. -/
def handle (dial : DialResult) (s : SessionScripts) : HandleResult :=
  match dial with
  | .failed =>
    { clientClosed := true, backendClosed := false, pumpRuns := [],
      cancelConnCalled := true }
  | .ok =>
    { clientClosed := true, backendClosed := true,
      pumpRuns :=
        [Pooled.readAndWrite s.clientTCP true s.rsA s.wsA,
         Pooled.readAndWrite true s.clientTCP s.rsB s.wsB],
      cancelConnCalled := true }

/-- Result of one listener.Accept call: a connection (identified by a
number) or an error, which either is net.ErrClosed or is not. -/
inductive AcceptResult where
  | conn (id : Nat)
  | fail (isErrClosed : Bool)
deriving DecidableEq, Repr

/-- How Run ended.  stillRunning stands for the loop still blocking in
Accept after the script ran out: in the program Run has not returned. -/
inductive RunOutcome where
  | createListenerError (e : ListenerError)
  | gracefulNil
  | stillRunning
deriving DecidableEq, Repr

/-- Observable effect of Run. -/
structure RunResult where
  outcome : RunOutcome
  /-- ids of accepted connections handed to handle, in order -/
  handledIds : List Nat
  /-- result of each spawned handle call -/
  sessions : List HandleResult
  /-- number of accept errors that were logged and skipped -/
  loggedAcceptErrors : Nat
deriving DecidableEq, Repr

/-- The accept loop of Run (part_001 lines 62-78, identical in
proxy.go lines 121-137): Accept; on net.ErrClosed return nil; on any
other error log and continue; on success spawn handle and continue.
sessionOf gives the dial result and scripts of each accepted
connection. -/
def acceptLoop (sessionOf : Nat → DialResult × SessionScripts) :
    List AcceptResult → RunResult
  | [] => ⟨.stillRunning, [], [], 0⟩
  | .conn id :: rest =>
    let r := acceptLoop sessionOf rest
    ⟨r.outcome, id :: r.handledIds,
      handle (sessionOf id).1 (sessionOf id).2 :: r.sessions, r.loggedAcceptErrors⟩
  | .fail true :: _ => ⟨.gracefulNil, [], [], 0⟩
  | .fail false :: rest =>
    let r := acceptLoop sessionOf rest
    ⟨r.outcome, r.handledIds, r.sessions, r.loggedAcceptErrors + 1⟩

/-- Run of the pooled revision (part_001 lines 44-79): create the
listener through the stored factory, wrapping a failure; then run the
accept loop.  The companion goroutine that closes the listener on
ctx.Done() is what makes Accept fail with net.ErrClosed on shutdown;
that failure is an AcceptResult.fail true entry of the script. -/
def Run (p : Proxy) (env : FsEnv) (sessionOf : Nat → DialResult × SessionScripts)
    (accepts : List AcceptResult) : RunResult :=
  match p.makeListener env with
  | .error e => ⟨.createListenerError e, [], [], 0⟩
  | .ok _ => acceptLoop sessionOf accepts

/-! ## Interleaving model of one session

handle plus its two pumps and their two watcher goroutines form five
concurrent tasks sharing the session scope.  Each task is the list of
its remaining atomic steps, transcribed from the Go statements; a
scheduler (a list of task indices) picks which enabled task steps
next.  wg is the number of wg.Done calls still owed to the WaitGroup
by these five tasks (Run and handle performed the matching wg.Add
calls before the tasks started). -/

/-- One atomic step of a session task. -/
inductive SessAct where
  /-- block until the session scope is cancelled -/
  | waitCancel
  /-- cancelConn() -/
  | cancelScope
  /-- client.Close() -/
  | closeClientConn
  /-- backend.Close() -/
  | closeBackendConn
  /-- the watcher closing connToRead and connToWrite -/
  | closeBothConns
  /-- one Read or Write call of a pump completing -/
  | ioStep
  /-- the deferred wg.Done() as the task returns -/
  | wgDone
deriving DecidableEq, Repr

/-- Shared state of the five session tasks. -/
structure SessState where
  cancelled : Bool
  clientClosed : Bool
  backendClosed : Bool
  wg : Nat
  tasks : List (List SessAct)
deriving DecidableEq, Repr

/-- Run one step of task i, when that task exists, has steps left and
its head step is enabled; otherwise the state is unchanged. -/
def stepTask (s : SessState) (i : Nat) : SessState :=
  match s.tasks[i]? with
  | none => s
  | some [] => s
  | some (.waitCancel :: rest) =>
    if s.cancelled then { s with tasks := s.tasks.set i rest } else s
  | some (.cancelScope :: rest) =>
    { s with cancelled := true, tasks := s.tasks.set i rest }
  | some (.closeClientConn :: rest) =>
    { s with clientClosed := true, tasks := s.tasks.set i rest }
  | some (.closeBackendConn :: rest) =>
    { s with backendClosed := true, tasks := s.tasks.set i rest }
  | some (.closeBothConns :: rest) =>
    { s with clientClosed := true, backendClosed := true, tasks := s.tasks.set i rest }
  | some (.ioStep :: rest) =>
    { s with tasks := s.tasks.set i rest }
  | some (.wgDone :: rest) =>
    { s with wg := s.wg - 1, tasks := s.tasks.set i rest }

/-- Run a whole schedule. -/
def exec : SessState → List Nat → SessState
  | s, [] => s
  | s, i :: sched => exec (stepTask s i) sched

/-- Task 0: the tail of handle after starting the pumps (part_000
lines 79 and the deferred calls of lines 60-73, in LIFO order):
wait on connCtx.Done(), then backend.Close(), client.Close(),
cancelConn(), wg.Done(). -/
def handleTailProg : List SessAct :=
  [.waitCancel, .closeBackendConn, .closeClientConn, .cancelScope, .wgDone]

/-- Tasks 1 and 2: a pump that performs n read/write steps and then
hits an I/O error: it half-closes, calls cancelConn() and returns,
running its deferred Put and wg.Done().  The half-close and the buffer
release are invisible to the shared flags modelled here. -/
def pumpProg (n : Nat) : List SessAct :=
  List.replicate n .ioStep ++ [.cancelScope, .wgDone]

/-- Tasks 3 and 4: the watcher goroutine of each pump: wait on
ctx.Done(), close both connections, wg.Done(). -/
def watcherProg : List SessAct :=
  [.waitCancel, .closeBothConns, .wgDone]

/-- The session right after a successful dial with both pumps and
watchers spawned: five live tasks, each owing one wg.Done. -/
def sessionInit (a b : Nat) : SessState :=
  { cancelled := false, clientClosed := false, backendClosed := false, wg := 5,
    tasks := [handleTailProg, pumpProg a, pumpProg b, watcherProg, watcherProg] }

/-- The id a script entry hands to handle, if any. -/
def acceptedId : AcceptResult → Option Nat
  | .conn id => some id
  | .fail _ => none

/-- A task program owes exactly one wg.Done, as its final step: this is
what the defer discipline of the Go code guarantees for every session
goroutine. -/
def wgFair (t : List SessAct) : Prop :=
  t.count SessAct.wgDone ≤ 1 ∧
    (t ≠ [] → ∃ u, t = u ++ [SessAct.wgDone])

/-- The WaitGroup invariant of a session: the counter equals the
number of wg.Done calls still owed, and every task owes its Done as
its last step. -/
def SessInv (s : SessState) : Prop :=
  s.wg = (s.tasks.map (fun t => t.count SessAct.wgDone)).sum ∧
    ∀ t ∈ s.tasks, wgFair t

/-! ## Concrete instances used by witnesses -/

/-- An environment in which every external call succeeds. -/
def envAllOk : FsEnv :=
  { statOk := fun _ => true, loadOk := fun _ _ => true,
    tcpListenOk := fun _ => true, tlsListenOk := fun _ => true }

/-- An environment in which files exist but the key pair does not
parse. -/
def envLoadFails : FsEnv :=
  { statOk := fun _ => true, loadOk := fun _ _ => false,
    tcpListenOk := fun _ => true, tlsListenOk := fun _ => true }

/-- Empty per-session scripts. -/
def emptyScripts : SessionScripts :=
  { clientTCP := true, rsA := [], wsA := [], rsB := [], wsB := [] }

/-- A session table whose every dial fails. -/
def noSessions : Nat → DialResult × SessionScripts :=
  fun _ => (DialResult.failed, emptyScripts)

/-- The proxy CreateProxy builds with no options. -/
def tcpProxyDefault : Proxy :=
  { config := defaultConfig, bufPoolNewSize := 32768, factory := FactoryKind.tcp }

/-- The proxy CreateProxy builds from WithTlSEnabled true alone. -/
def tlsProxyDefault : Proxy :=
  { config := { defaultConfig with tlsEnabled := true },
    bufPoolNewSize := 32768, factory := FactoryKind.tls }

/-- The configuration resolved from WithTlSEnabled true and the two
path options. -/
def configTlsWith (certP keyP : String) : Config :=
  { defaultConfig with tlsEnabled := true, certFilePath := certP, keyFilePath := keyP }

/-- The proxy CreateProxy builds from WithTlSEnabled true and the two
path options. -/
def tlsProxyWith (certP keyP : String) : Proxy :=
  { config := configTlsWith certP keyP,
    bufPoolNewSize := 32768, factory := FactoryKind.tls }

/-- A certificate path used in witnesses. -/
def certPath0 : String := "cert.pem"

/-- A key path used in witnesses. -/
def keyPath0 : String := "key.pem"

/-! ## Lemmas about the accumulation loop -/

theorem writeLoop_sent_of_complete :
    ∀ (ws : List WriteResult) (data : List Nat) (written : Nat),
      (writeLoop ws data written).outcome = WriteLoopOutcome.complete →
      (writeLoop ws data written).sent = data.drop written := by
  intro ws
  induction ws with
  | nil =>
    intro data written h
    by_cases hw : written < data.length
    · simp [writeLoop, hw] at h
    · simp [writeLoop, hw]
      omega
  | cons head rest ih =>
    intro data written h
    cases head with
    | fail =>
      by_cases hw : written < data.length
      · simp [writeLoop, hw] at h
      · simp [writeLoop, hw]
        omega
    | ok k =>
      by_cases hw : written < data.length
      · simp only [writeLoop, if_pos hw] at h ⊢
        rw [ih data (written + k) h]
        rw [← List.drop_drop]
        exact List.take_append_drop k (data.drop written)
      · simp [writeLoop, hw]
        omega

theorem writeLoop_calls_eq_map_drop :
    ∀ (ws : List WriteResult) (data : List Nat) (written : Nat),
      (writeLoop ws data written).calls =
        (writeLoop ws data written).writtenTrace.map fun t => data.drop t := by
  intro ws
  induction ws with
  | nil => intro data written; by_cases hw : written < data.length <;> simp [writeLoop, hw]
  | cons head rest ih =>
    intro data written
    cases head with
    | fail => by_cases hw : written < data.length <;> simp [writeLoop, hw]
    | ok k =>
      by_cases hw : written < data.length
      · simp only [writeLoop, if_pos hw, List.map_cons, List.cons.injEq]
        exact ⟨trivial, ih data (written + k)⟩
      · simp [writeLoop, hw]

theorem writeLoop_trace_bounds :
    ∀ (ws : List WriteResult) (data : List Nat) (written : Nat),
      ∀ x ∈ (writeLoop ws data written).writtenTrace,
        written ≤ x ∧ x < data.length := by
  intro ws
  induction ws with
  | nil => intro data written x hx; by_cases hw : written < data.length <;> simp [writeLoop, hw] at hx
  | cons head rest ih =>
    intro data written x hx
    cases head with
    | fail =>
      by_cases hw : written < data.length <;> simp [writeLoop, hw] at hx
      omega
    | ok k =>
      by_cases hw : written < data.length
      · simp only [writeLoop, if_pos hw, List.mem_cons] at hx
        rcases hx with hx | hx
        · omega
        · have := ih data (written + k) x hx
          omega
      · simp [writeLoop, hw] at hx

theorem writeLoop_trace_chain :
    ∀ (ws : List WriteResult) (data : List Nat) (written : Nat),
      List.Chain' (· ≤ ·) (writeLoop ws data written).writtenTrace := by
  intro ws
  induction ws with
  | nil => intro data written; by_cases hw : written < data.length <;> simp [writeLoop, hw]
  | cons head rest ih =>
    intro data written
    cases head with
    | fail => by_cases hw : written < data.length <;> simp [writeLoop, hw]
    | ok k =>
      by_cases hw : written < data.length
      · simp only [writeLoop, if_pos hw]
        refine List.chain'_cons'.mpr ⟨?_, ih data (written + k)⟩
        intro y hy
        have hmem : y ∈ (writeLoop rest data (written + k)).writtenTrace :=
          List.mem_of_mem_head? hy
        have := writeLoop_trace_bounds rest data (written + k) y hmem
        omega
      · simp [writeLoop, hw]

theorem writeLoop_trace_starts_at :
    ∀ (ws : List WriteResult) (data : List Nat) (written : Nat),
      (writeLoop ws data written).writtenTrace.head? = some written ∨
        (writeLoop ws data written).writtenTrace = [] := by
  intro ws data written
  cases ws with
  | nil => by_cases hw : written < data.length <;> simp [writeLoop, hw]
  | cons head rest =>
    cases head with
    | fail => by_cases hw : written < data.length <;> simp [writeLoop, hw]
    | ok k => by_cases hw : written < data.length <;> simp [writeLoop, hw]

theorem writeLoop_finalWritten_of_complete :
    ∀ (ws : List WriteResult) (data : List Nat) (written : Nat),
      written ≤ data.length →
      writesWithinRequest ws data written = true →
      (writeLoop ws data written).outcome = WriteLoopOutcome.complete →
      (writeLoop ws data written).finalWritten = data.length := by
  intro ws
  induction ws with
  | nil =>
    intro data written hle _ h
    by_cases hw : written < data.length
    · simp [writeLoop, hw] at h
    · simp [writeLoop, hw]; omega
  | cons head rest ih =>
    intro data written hle hvalid h
    cases head with
    | fail =>
      by_cases hw : written < data.length
      · simp [writeLoop, hw] at h
      · simp [writeLoop, hw]; omega
    | ok k =>
      by_cases hw : written < data.length
      · simp only [writeLoop, if_pos hw] at h ⊢
        simp only [writesWithinRequest, if_pos hw, Bool.and_eq_true, decide_eq_true_eq] at hvalid
        exact ih data (written + k) (by omega) hvalid.2 h
      · simp [writeLoop, hw]; omega

theorem writeLoop_failed_decomp :
    ∀ (ws : List WriteResult) (data : List Nat) (written : Nat),
      (writeLoop ws data written).outcome = WriteLoopOutcome.failed →
      ∃ pre, ws = pre ++ WriteResult.fail :: (writeLoop ws data written).wsRest ∧
        (∀ x ∈ pre, x ≠ WriteResult.fail) ∧
        (writeLoop ws data written).calls.length = pre.length + 1 := by
  intro ws
  induction ws with
  | nil =>
    intro data written h
    by_cases hw : written < data.length <;> simp [writeLoop, hw] at h
  | cons head rest ih =>
    intro data written h
    cases head with
    | fail =>
      by_cases hw : written < data.length
      · refine ⟨[], ?_⟩
        simp [writeLoop, hw]
      · simp [writeLoop, hw] at h
    | ok k =>
      by_cases hw : written < data.length
      · simp only [writeLoop, if_pos hw] at h ⊢
        obtain ⟨pre, hws, hok, hlen⟩ := ih data (written + k) h
        refine ⟨WriteResult.ok k :: pre, ?_, ?_, ?_⟩
        · conv_lhs => rw [hws]
          rfl
        · intro x hx
          rcases List.mem_cons.mp hx with rfl | hx
          · simp
          · exact hok x hx
        · simp only [List.length_cons]
          omega
      · simp [writeLoop, hw] at h

theorem writeLoop_complete_consumption :
    ∀ (ws : List WriteResult) (data : List Nat) (written : Nat),
      (writeLoop ws data written).outcome = WriteLoopOutcome.complete →
      ∃ pre, ws = pre ++ (writeLoop ws data written).wsRest ∧
        (∀ x ∈ pre, x ≠ WriteResult.fail) ∧
        (writeLoop ws data written).calls.length = pre.length := by
  intro ws
  induction ws with
  | nil =>
    intro data written h
    by_cases hw : written < data.length
    · simp [writeLoop, hw] at h
    · exact ⟨[], by simp [writeLoop, hw]⟩
  | cons head rest ih =>
    intro data written h
    cases head with
    | fail =>
      by_cases hw : written < data.length
      · simp [writeLoop, hw] at h
      · exact ⟨[], by simp [writeLoop, hw]⟩
    | ok k =>
      by_cases hw : written < data.length
      · simp only [writeLoop, if_pos hw] at h ⊢
        obtain ⟨pre, hws, hok, hlen⟩ := ih data (written + k) h
        refine ⟨WriteResult.ok k :: pre, ?_, ?_, ?_⟩
        · conv_lhs => rw [hws]
          rfl
        · intro x hx
          rcases List.mem_cons.mp hx with rfl | hx
          · simp
          · exact hok x hx
        · simp only [List.length_cons]
          omega
      · exact ⟨[], by simp [writeLoop, hw]⟩

/-! ## Lemmas about the pumps -/

theorem pooled_sent_of_readError :
    ∀ (chunks : List (List Nat)) (srcTCP dstTCP : Bool) (e : IOError)
      (rs2 : List ReadResult) (ws : List WriteResult),
      (Pooled.readAndWrite srcTCP dstTCP
          (chunks.map ReadResult.ok ++ ReadResult.fail e :: rs2) ws).exitKind
        = PumpExit.readError e →
      (Pooled.readAndWrite srcTCP dstTCP
          (chunks.map ReadResult.ok ++ ReadResult.fail e :: rs2) ws).sent
        = chunks.flatten := by
  intro chunks
  induction chunks with
  | nil =>
    intro srcTCP dstTCP e rs2 ws _
    simp [Pooled.readAndWrite]
  | cons c cs ih =>
    intro srcTCP dstTCP e rs2 ws h
    simp only [List.map_cons, List.cons_append] at h ⊢
    rcases hout : (writeLoop ws c 0).outcome with _ | _ | _
    · simp only [Pooled.readAndWrite, hout] at h ⊢
      rw [writeLoop_sent_of_complete ws c 0 hout, List.drop_zero, List.flatten_cons]
      rw [ih srcTCP dstTCP e rs2 (writeLoop ws c 0).wsRest h]
    · simp only [Pooled.readAndWrite, hout] at h
      simp at h
    · simp only [Pooled.readAndWrite, hout] at h
      simp at h

theorem legacy_sent_of_readError :
    ∀ (chunks : List (List Nat)) (srcTCP dstTCP : Bool) (e : IOError)
      (rs2 : List ReadResult) (ws : List WriteResult),
      (Legacy.readAndWrite srcTCP dstTCP
          (chunks.map ReadResult.ok ++ ReadResult.fail e :: rs2) ws).exitKind
        = PumpExit.readError e →
      (Legacy.readAndWrite srcTCP dstTCP
          (chunks.map ReadResult.ok ++ ReadResult.fail e :: rs2) ws).sent
        = chunks.flatten := by
  intro chunks
  induction chunks with
  | nil =>
    intro srcTCP dstTCP e rs2 ws _
    simp [Legacy.readAndWrite]
  | cons c cs ih =>
    intro srcTCP dstTCP e rs2 ws h
    simp only [List.map_cons, List.cons_append] at h ⊢
    rcases hout : (writeLoop ws c 0).outcome with _ | _ | _
    · simp only [Legacy.readAndWrite, hout] at h ⊢
      rw [writeLoop_sent_of_complete ws c 0 hout, List.drop_zero, List.flatten_cons]
      rw [ih srcTCP dstTCP e rs2 (writeLoop ws c 0).wsRest h]
    · simp only [Legacy.readAndWrite, hout] at h
      simp at h
    · simp only [Legacy.readAndWrite, hout] at h
      simp at h

theorem pooled_readError_effects :
    ∀ (rs : List ReadResult) (srcTCP dstTCP : Bool) (e : IOError) (ws : List WriteResult),
      (Pooled.readAndWrite srcTCP dstTCP rs ws).exitKind = PumpExit.readError e →
      (Pooled.readAndWrite srcTCP dstTCP rs ws).halfClose
          = (if srcTCP then some (HalfCloseAct.closeWriteOn ConnSide.src) else none) ∧
        (Pooled.readAndWrite srcTCP dstTCP rs ws).cancelled = true := by
  intro rs
  induction rs with
  | nil => intro srcTCP dstTCP e ws h; simp [Pooled.readAndWrite] at h
  | cons head rest ih =>
    intro srcTCP dstTCP e ws h
    cases head with
    | fail e2 => simp [Pooled.readAndWrite]
    | ok data =>
      rcases hout : (writeLoop ws data 0).outcome with _ | _ | _
      · simp only [Pooled.readAndWrite, hout] at h ⊢
        exact ih srcTCP dstTCP e (writeLoop ws data 0).wsRest h
      · simp only [Pooled.readAndWrite, hout] at h
        simp at h
      · simp only [Pooled.readAndWrite, hout] at h
        simp at h

theorem legacy_readError_effects :
    ∀ (rs : List ReadResult) (srcTCP dstTCP : Bool) (e : IOError) (ws : List WriteResult),
      (Legacy.readAndWrite srcTCP dstTCP rs ws).exitKind = PumpExit.readError e →
      (Legacy.readAndWrite srcTCP dstTCP rs ws).halfClose
          = (if srcTCP then some (HalfCloseAct.closeWriteOn ConnSide.src) else none) ∧
        (Legacy.readAndWrite srcTCP dstTCP rs ws).cancelled = true := by
  intro rs
  induction rs with
  | nil => intro srcTCP dstTCP e ws h; simp [Legacy.readAndWrite] at h
  | cons head rest ih =>
    intro srcTCP dstTCP e ws h
    cases head with
    | fail e2 => simp [Legacy.readAndWrite]
    | ok data =>
      rcases hout : (writeLoop ws data 0).outcome with _ | _ | _
      · simp only [Legacy.readAndWrite, hout] at h ⊢
        exact ih srcTCP dstTCP e (writeLoop ws data 0).wsRest h
      · simp only [Legacy.readAndWrite, hout] at h
        simp at h
      · simp only [Legacy.readAndWrite, hout] at h
        simp at h

theorem pooled_writeFailed_effects :
    ∀ (rs : List ReadResult) (srcTCP dstTCP : Bool) (ws : List WriteResult),
      (Pooled.readAndWrite srcTCP dstTCP rs ws).exitKind = PumpExit.writeFailed →
      (Pooled.readAndWrite srcTCP dstTCP rs ws).halfClose
          = (if dstTCP then some (HalfCloseAct.closeReadOn ConnSide.dst) else none) ∧
        (Pooled.readAndWrite srcTCP dstTCP rs ws).cancelled = true := by
  intro rs
  induction rs with
  | nil => intro srcTCP dstTCP ws h; simp [Pooled.readAndWrite] at h
  | cons head rest ih =>
    intro srcTCP dstTCP ws h
    cases head with
    | fail e2 => simp [Pooled.readAndWrite] at h
    | ok data =>
      rcases hout : (writeLoop ws data 0).outcome with _ | _ | _
      · simp only [Pooled.readAndWrite, hout] at h ⊢
        exact ih srcTCP dstTCP (writeLoop ws data 0).wsRest h
      · simp [Pooled.readAndWrite, hout]
      · simp only [Pooled.readAndWrite, hout] at h
        simp at h

theorem legacy_writeFailed_effects :
    ∀ (rs : List ReadResult) (srcTCP dstTCP : Bool) (ws : List WriteResult),
      (Legacy.readAndWrite srcTCP dstTCP rs ws).exitKind = PumpExit.writeFailed →
      (Legacy.readAndWrite srcTCP dstTCP rs ws).halfClose
          = (if srcTCP then some (HalfCloseAct.closeReadOn ConnSide.src) else none) ∧
        (Legacy.readAndWrite srcTCP dstTCP rs ws).cancelled = true := by
  intro rs
  induction rs with
  | nil => intro srcTCP dstTCP ws h; simp [Legacy.readAndWrite] at h
  | cons head rest ih =>
    intro srcTCP dstTCP ws h
    cases head with
    | fail e2 => simp [Legacy.readAndWrite] at h
    | ok data =>
      rcases hout : (writeLoop ws data 0).outcome with _ | _ | _
      · simp only [Legacy.readAndWrite, hout] at h ⊢
        exact ih srcTCP dstTCP (writeLoop ws data 0).wsRest h
      · simp [Legacy.readAndWrite, hout]
      · simp only [Legacy.readAndWrite, hout] at h
        simp at h

theorem pooled_writeFailed_no_retry :
    ∀ (rs : List ReadResult) (srcTCP dstTCP : Bool) (ws : List WriteResult),
      (Pooled.readAndWrite srcTCP dstTCP rs ws).exitKind = PumpExit.writeFailed →
      ∃ pre, ws = pre ++ WriteResult.fail :: (Pooled.readAndWrite srcTCP dstTCP rs ws).wsRest ∧
        (∀ x ∈ pre, x ≠ WriteResult.fail) ∧
        (Pooled.readAndWrite srcTCP dstTCP rs ws).writeCalls.length = pre.length + 1 := by
  intro rs
  induction rs with
  | nil => intro srcTCP dstTCP ws h; simp [Pooled.readAndWrite] at h
  | cons head rest ih =>
    intro srcTCP dstTCP ws h
    cases head with
    | fail e2 => simp [Pooled.readAndWrite] at h
    | ok data =>
      rcases hout : (writeLoop ws data 0).outcome with _ | _ | _
      · simp only [Pooled.readAndWrite, hout] at h ⊢
        obtain ⟨pre2, hws2, hok2, hlen2⟩ :=
          ih srcTCP dstTCP (writeLoop ws data 0).wsRest h
        obtain ⟨pre1, hws1, hok1, hlen1⟩ :=
          writeLoop_complete_consumption ws data 0 hout
        refine ⟨pre1 ++ pre2, ?_, ?_, ?_⟩
        · conv_lhs => rw [hws1, hws2]
          exact (List.append_assoc pre1 pre2 _).symm
        · intro x hx
          rcases List.mem_append.mp hx with hx | hx
          · exact hok1 x hx
          · exact hok2 x hx
        · simp only [List.length_append]
          omega
      · simp only [Pooled.readAndWrite, hout] at h ⊢
        exact writeLoop_failed_decomp ws data 0 hout
      · simp only [Pooled.readAndWrite, hout] at h
        simp at h

/-! ## Lemmas about the accept loop -/

theorem acceptLoop_gracefulNil_iff :
    ∀ (f : Nat → DialResult × SessionScripts) (s : List AcceptResult),
      (acceptLoop f s).outcome = RunOutcome.gracefulNil ↔ AcceptResult.fail true ∈ s := by
  intro f s
  induction s with
  | nil => simp [acceptLoop]
  | cons a rest ih =>
    cases a with
    | conn id => simp [acceptLoop, ih]
    | fail b => cases b <;> simp [acceptLoop, ih]

theorem acceptLoop_no_closed :
    ∀ (f : Nat → DialResult × SessionScripts) (s : List AcceptResult),
      AcceptResult.fail true ∉ s →
      (acceptLoop f s).outcome = RunOutcome.stillRunning ∧
        (acceptLoop f s).loggedAcceptErrors = s.count (AcceptResult.fail false) ∧
        (acceptLoop f s).handledIds = s.filterMap acceptedId := by
  intro f s
  induction s with
  | nil => intro _; simp [acceptLoop]
  | cons a rest ih =>
    intro hmem
    have hrest : AcceptResult.fail true ∉ rest := fun hr => hmem (List.mem_cons_of_mem a hr)
    obtain ⟨h1, h2, h3⟩ := ih hrest
    cases a with
    | conn id => simp [acceptLoop, h1, h2, h3, acceptedId, List.count_cons]
    | fail b =>
      cases b
      · simp [acceptLoop, h1, h2, h3, acceptedId, List.count_cons]
      · exact absurd (List.mem_cons_self _ _) hmem

theorem acceptLoop_session_independence :
    ∀ (f g : Nat → DialResult × SessionScripts) (s : List AcceptResult),
      (acceptLoop f s).outcome = (acceptLoop g s).outcome ∧
        (acceptLoop f s).handledIds = (acceptLoop g s).handledIds ∧
        (acceptLoop f s).loggedAcceptErrors = (acceptLoop g s).loggedAcceptErrors := by
  intro f g s
  induction s with
  | nil => simp [acceptLoop]
  | cons a rest ih =>
    obtain ⟨h1, h2, h3⟩ := ih
    cases a with
    | conn id => simp [acceptLoop, h1, h2, h3]
    | fail b => cases b <;> simp [acceptLoop, h1, h2, h3]

/-! ## Lemmas about the session interleaving model -/

theorem wgFair_nil : wgFair [] := by
  constructor
  · simp
  · intro h; exact absurd rfl h

theorem wgFair_cons_ne (a : SessAct) (rest : List SessAct)
    (h : wgFair (a :: rest)) (ha : a ≠ SessAct.wgDone) :
    wgFair rest ∧ rest ≠ [] ∧
      (a :: rest).count SessAct.wgDone = rest.count SessAct.wgDone := by
  have hcount : (a :: rest).count SessAct.wgDone = rest.count SessAct.wgDone := by
    simp [List.count_cons, ha]
  obtain ⟨u, hu⟩ := h.2 (List.cons_ne_nil a rest)
  cases u with
  | nil =>
    simp only [List.nil_append, List.cons.injEq] at hu
    exact absurd hu.1 ha
  | cons a2 u2 =>
    simp only [List.cons_append, List.cons.injEq] at hu
    have hrest : rest = u2 ++ [SessAct.wgDone] := hu.2
    refine ⟨⟨?_, fun _ => ⟨u2, hrest⟩⟩, ?_, hcount⟩
    · rw [← hcount]; exact h.1
    · rw [hrest]; exact List.append_ne_nil_of_right_ne_nil u2 (by simp)

theorem wgFair_cons_done (rest : List SessAct)
    (h : wgFair (SessAct.wgDone :: rest)) : rest = [] := by
  have hc : rest.count SessAct.wgDone = 0 := by
    have := h.1
    simp [List.count_cons] at this
    omega
  obtain ⟨u, hu⟩ := h.2 (List.cons_ne_nil _ _)
  cases u with
  | nil => simpa using hu
  | cons a2 u2 =>
    simp only [List.cons_append, List.cons.injEq] at hu
    have : SessAct.wgDone ∈ rest := by
      rw [hu.2]; exact List.mem_append_right u2 (by simp)
    have := List.count_pos_iff.mpr this
    omega

theorem wgFair_empty_of_count_zero (t : List SessAct)
    (hf : wgFair t) (hc : t.count SessAct.wgDone = 0) : t = [] := by
  by_contra hne
  obtain ⟨u, hu⟩ := hf.2 hne
  have : SessAct.wgDone ∈ t := by
    rw [hu]; exact List.mem_append_right u (by simp)
  have := List.count_pos_iff.mpr this
  omega

theorem sum_map_set {α : Type} (f : α → Nat) :
    ∀ (l : List α) (i : Nat) (x : α) (hi : i < l.length),
      ((l.set i x).map f).sum + f (l.get ⟨i, hi⟩) = (l.map f).sum + f x := by
  intro l
  induction l with
  | nil => intro i x hi; simp at hi
  | cons a rest ih =>
    intro i x hi
    cases i with
    | zero => simp [List.set]; omega
    | succ j =>
      simp only [List.set, List.map_cons, List.sum_cons, List.length_cons] at hi ⊢
      have := ih j x (Nat.lt_of_succ_lt_succ hi)
      simp only [List.get] at this ⊢
      omega

theorem inv_after_set (s : SessState) (i : Nat) (act : SessAct) (rest : List SessAct)
    (heq : s.tasks[i]? = some (act :: rest))
    (h1 : s.wg = (s.tasks.map (fun t => t.count SessAct.wgDone)).sum)
    (h2 : ∀ t ∈ s.tasks, wgFair t) :
    (∀ t ∈ s.tasks.set i rest, wgFair t) ∧
      (act ≠ SessAct.wgDone →
        ((s.tasks.set i rest).map (fun t => t.count SessAct.wgDone)).sum = s.wg) ∧
      (act = SessAct.wgDone →
        ((s.tasks.set i rest).map (fun t => t.count SessAct.wgDone)).sum = s.wg - 1) := by
  obtain ⟨hi, hgv⟩ := List.getElem?_eq_some.mp heq
  have hmem : s.tasks[i] ∈ s.tasks := List.getElem_mem hi
  have hfair : wgFair (act :: rest) := by
    rw [← hgv]; exact h2 _ hmem
  have hsum := sum_map_set (fun t => t.count SessAct.wgDone) s.tasks i rest hi
  simp only [List.get_eq_getElem, hgv] at hsum
  refine ⟨?_, ?_, ?_⟩
  · intro t ht
    rcases List.mem_or_eq_of_mem_set ht with ht | heq2
    · exact h2 t ht
    · subst heq2
      by_cases hact : act = SessAct.wgDone
      · subst hact
        rw [wgFair_cons_done t hfair]
        exact wgFair_nil
      · exact (wgFair_cons_ne act t hfair hact).1
  · intro hact
    have := (wgFair_cons_ne act rest hfair hact).2.2
    omega
  · intro hact
    subst hact
    have hrest : rest = [] := wgFair_cons_done rest hfair
    subst hrest
    have hone : (SessAct.wgDone :: ([] : List SessAct)).count SessAct.wgDone = 1 := by decide
    have hzero : ([] : List SessAct).count SessAct.wgDone = 0 := by decide
    rw [hone, hzero] at hsum
    omega

theorem stepTask_preserves (s : SessState) (i : Nat) (h : SessInv s) :
    SessInv (stepTask s i) := by
  obtain ⟨h1, h2⟩ := h
  unfold stepTask
  split
  · exact ⟨h1, h2⟩
  · exact ⟨h1, h2⟩
  · rename_i rest heq
    split
    · exact ⟨((inv_after_set s i SessAct.waitCancel rest heq h1 h2).2.1 (by decide)).symm,
        (inv_after_set s i SessAct.waitCancel rest heq h1 h2).1⟩
    · exact ⟨h1, h2⟩
  · rename_i rest heq
    exact ⟨((inv_after_set s i SessAct.cancelScope rest heq h1 h2).2.1 (by decide)).symm,
      (inv_after_set s i SessAct.cancelScope rest heq h1 h2).1⟩
  · rename_i rest heq
    exact ⟨((inv_after_set s i SessAct.closeClientConn rest heq h1 h2).2.1 (by decide)).symm,
      (inv_after_set s i SessAct.closeClientConn rest heq h1 h2).1⟩
  · rename_i rest heq
    exact ⟨((inv_after_set s i SessAct.closeBackendConn rest heq h1 h2).2.1 (by decide)).symm,
      (inv_after_set s i SessAct.closeBackendConn rest heq h1 h2).1⟩
  · rename_i rest heq
    exact ⟨((inv_after_set s i SessAct.closeBothConns rest heq h1 h2).2.1 (by decide)).symm,
      (inv_after_set s i SessAct.closeBothConns rest heq h1 h2).1⟩
  · rename_i rest heq
    exact ⟨((inv_after_set s i SessAct.ioStep rest heq h1 h2).2.1 (by decide)).symm,
      (inv_after_set s i SessAct.ioStep rest heq h1 h2).1⟩
  · rename_i rest heq
    exact ⟨((inv_after_set s i SessAct.wgDone rest heq h1 h2).2.2 rfl).symm,
      (inv_after_set s i SessAct.wgDone rest heq h1 h2).1⟩

theorem exec_preserves :
    ∀ (sched : List Nat) (s : SessState), SessInv s → SessInv (exec s sched) := by
  intro sched
  induction sched with
  | nil => intro s h; exact h
  | cons i rest ih => intro s h; exact ih (stepTask s i) (stepTask_preserves s i h)

theorem wgFair_handleTailProg : wgFair handleTailProg := by
  constructor
  · decide
  · intro _
    exact ⟨[SessAct.waitCancel, SessAct.closeBackendConn, SessAct.closeClientConn,
      SessAct.cancelScope], by decide⟩

theorem wgFair_pumpProg (n : Nat) : wgFair (pumpProg n) := by
  constructor
  · simp [pumpProg, List.count_append, List.count_replicate, List.count_cons]
  · intro _
    refine ⟨List.replicate n SessAct.ioStep ++ [SessAct.cancelScope], ?_⟩
    simp [pumpProg]

theorem wgFair_watcherProg : wgFair watcherProg := by
  constructor
  · decide
  · intro _
    exact ⟨[SessAct.waitCancel, SessAct.closeBothConns], by decide⟩

theorem sessionInit_inv (a b : Nat) : SessInv (sessionInit a b) := by
  constructor
  · simp [sessionInit, handleTailProg, pumpProg, watcherProg, List.count_append,
      List.count_replicate, List.count_cons]
  · intro t ht
    simp only [sessionInit, List.mem_cons, List.not_mem_nil, or_false] at ht
    rcases ht with rfl | rfl | rfl | rfl | rfl
    · exact wgFair_handleTailProg
    · exact wgFair_pumpProg a
    · exact wgFair_pumpProg b
    · exact wgFair_watcherProg
    · exact wgFair_watcherProg

theorem session_wg_zero_all_exited (a b : Nat) (sched : List Nat)
    (h : (exec (sessionInit a b) sched).wg = 0) :
    ∀ t ∈ (exec (sessionInit a b) sched).tasks, t = [] := by
  have hinv := exec_preserves sched (sessionInit a b) (sessionInit_inv a b)
  obtain ⟨h1, h2⟩ := hinv
  intro t ht
  have hsum : ((exec (sessionInit a b) sched).tasks.map
      (fun t => t.count SessAct.wgDone)).sum = 0 := by omega
  have hz : t.count SessAct.wgDone = 0 := by
    have := List.sum_eq_zero_iff.mp hsum
    exact this _ (List.mem_map_of_mem _ ht)
  exact wgFair_empty_of_count_zero t (h2 t ht) hz

/-! ## Claims -/

/-- C1: for every finite byte stream produced by the source connection,
the byte pump (readAndWrite, both the pooled and the legacy revision)
writes to the destination exactly the bytes it read, in order and
without loss or duplication, accumulating partial writes so that the
concatenation of all written chunks equals the source payload, even
when the payload spans several buffer-sized reads.  The read script
lists the chunks Read returned followed by end-of-stream; exiting with
that read error means every chunk was forwarded completely. -/
theorem claim1_echo_fidelity (srcTCP dstTCP srcTCP2 dstTCP2 : Bool)
    (chunks chunks2 : List (List Nat)) (e e2 : IOError)
    (rs2 rs3 : List ReadResult) (ws ws2 : List WriteResult) :
    ((Pooled.readAndWrite srcTCP dstTCP
        (chunks.map ReadResult.ok ++ ReadResult.fail e :: rs2) ws).exitKind
          = PumpExit.readError e →
      (Pooled.readAndWrite srcTCP dstTCP
        (chunks.map ReadResult.ok ++ ReadResult.fail e :: rs2) ws).sent
          = chunks.flatten) ∧
    ((Legacy.readAndWrite srcTCP2 dstTCP2
        (chunks2.map ReadResult.ok ++ ReadResult.fail e2 :: rs3) ws2).exitKind
          = PumpExit.readError e2 →
      (Legacy.readAndWrite srcTCP2 dstTCP2
        (chunks2.map ReadResult.ok ++ ReadResult.fail e2 :: rs3) ws2).sent
          = chunks2.flatten) :=
  ⟨pooled_sent_of_readError chunks srcTCP dstTCP e rs2 ws,
    legacy_sent_of_readError chunks2 srcTCP2 dstTCP2 e2 rs3 ws2⟩

/-- C1 witness: a 5-byte payload read in chunks of at most 3 bytes and
delivered through partial writes of 2, 1 and 2 bytes arrives intact in
both pump revisions. -/
theorem claim1_witness :
    (Pooled.readAndWrite true true
      ([[1, 2, 3], [4, 5]].map ReadResult.ok ++ ReadResult.fail IOError.eof :: [])
      [WriteResult.ok 2, WriteResult.ok 1, WriteResult.ok 2]).sent
        = [[1, 2, 3], [4, 5]].flatten ∧
    (Legacy.readAndWrite true true
      ([[9], [8]].map ReadResult.ok ++ ReadResult.fail IOError.eof :: [])
      [WriteResult.ok 1, WriteResult.ok 1]).sent = [[9], [8]].flatten :=
  ⟨(claim1_echo_fidelity true true true true [[1, 2, 3], [4, 5]] [[9], [8]]
      IOError.eof IOError.eof [] []
      [WriteResult.ok 2, WriteResult.ok 1, WriteResult.ok 2]
      [WriteResult.ok 1, WriteResult.ok 1]).1 (by decide),
    (claim1_echo_fidelity true true true true [[1, 2, 3], [4, 5]] [[9], [8]]
      IOError.eof IOError.eof [] []
      [WriteResult.ok 2, WriteResult.ok 1, WriteResult.ok 2]
      [WriteResult.ok 1, WriteResult.ok 1]).2 (by decide)⟩

/-- C2: the claim says every borrow yields a usable buffer, freshly
allocated on first use and reused on subsequent borrows.  The code
breaks its own reuse contract: New returns a []byte and the deferred
release stores a *[]byte (bufPool.Put(&buf)), so the first borrow from
an empty pool succeeds with a fresh 1024*bufferSize byte slice, but
any borrow that receives a previously released item hits the type
assertion Get().([]byte) on a *[]byte value and panics.  First
conjunct: CreateProxy sizes the pool New at 1024*32 bytes by default;
second: the first pump invocation borrows fresh slice 0 of 32768 bytes
and releases it exactly once, as a pointer; third: the next invocation
that receives that item panics instead of reusing the buffer. -/
theorem claim2_pool_reuse_breaks :
    (CreateProxy []).map Proxy.bufPoolNewSize = Except.ok 32768 ∧
    (runPumpWithPool { newSize := 32768, free := [], nextId := 0 } true true
        [ReadResult.fail IOError.eof] []).map (fun x => (x.1, x.2.2.free))
      = some ((0, 32768), [PoolItem.ptrSlice 0 32768]) ∧
    runPumpWithPool { newSize := 32768, free := [PoolItem.ptrSlice 0 32768], nextId := 1 }
        true true [ReadResult.fail IOError.eof] [] = none := by
  refine ⟨rfl, rfl, rfl⟩

/-- C3 counterexample: on a read failure both pump revisions call
CloseWrite on the connection they read from (the source side of the
relay), not on the destination side as the claim states. -/
theorem claim3_counterexample :
    (Pooled.readAndWrite true true [ReadResult.fail IOError.eof] []).halfClose ≠
        some (HalfCloseAct.closeWriteOn ConnSide.dst) ∧
    (Legacy.readAndWrite true true [ReadResult.fail IOError.eof] []).halfClose ≠
        some (HalfCloseAct.closeWriteOn ConnSide.dst) ∧
    (Pooled.readAndWrite true true [ReadResult.fail IOError.eof] []).halfClose =
        some (HalfCloseAct.closeWriteOn ConnSide.src) ∧
    (Legacy.readAndWrite true true [ReadResult.fail IOError.eof] []).halfClose =
        some (HalfCloseAct.closeWriteOn ConnSide.src) := by
  refine ⟨by decide, by decide, by decide, by decide⟩

/-- C3 amended: on every read failure of the pump source, including
normal end-of-stream, the pump (both revisions) performs a write-half
shutdown on the SOURCE connection (the one whose read failed) if that
connection is a TCP connection, and performs no half-close otherwise;
it then triggers cancellation and exits, whereupon the watcher
goroutine fully closes both connections. -/
theorem claim3_amended (srcTCP dstTCP : Bool) (e : IOError)
    (rs rs2 : List ReadResult) (ws ws2 : List WriteResult) :
    ((Pooled.readAndWrite srcTCP dstTCP rs ws).exitKind = PumpExit.readError e →
      (Pooled.readAndWrite srcTCP dstTCP rs ws).halfClose
          = (if srcTCP then some (HalfCloseAct.closeWriteOn ConnSide.src) else none) ∧
        (Pooled.readAndWrite srcTCP dstTCP rs ws).cancelled = true) ∧
    ((Legacy.readAndWrite srcTCP dstTCP rs2 ws2).exitKind = PumpExit.readError e →
      (Legacy.readAndWrite srcTCP dstTCP rs2 ws2).halfClose
          = (if srcTCP then some (HalfCloseAct.closeWriteOn ConnSide.src) else none) ∧
        (Legacy.readAndWrite srcTCP dstTCP rs2 ws2).cancelled = true) ∧
    watcherOnCancel = [ConnSide.src, ConnSide.dst] :=
  ⟨pooled_readError_effects rs srcTCP dstTCP e ws,
    legacy_readError_effects rs2 srcTCP dstTCP e ws2, rfl⟩

/-- C3 witness: a pump whose first read hits end-of-stream half-closes
the write side of its TCP source and cancels. -/
theorem claim3_witness :
    (Pooled.readAndWrite true true [ReadResult.fail IOError.eof] []).halfClose
        = (if true then some (HalfCloseAct.closeWriteOn ConnSide.src) else none) ∧
      (Pooled.readAndWrite true true [ReadResult.fail IOError.eof] []).cancelled = true :=
  (claim3_amended true true IOError.eof [ReadResult.fail IOError.eof] []
    [] []).1 (by decide)

/-- C4 counterexample: on a write failure the pooled pump calls
CloseRead on the DESTINATION connection (connToWrite, the one whose
Write failed), not on the source side of the relay as the claim
states; the legacy revision is the one that closes the source side. -/
theorem claim4_counterexample :
    (Pooled.readAndWrite true true [ReadResult.ok [1]] [WriteResult.fail]).exitKind
        = PumpExit.writeFailed ∧
    (Pooled.readAndWrite true true [ReadResult.ok [1]] [WriteResult.fail]).halfClose
        = some (HalfCloseAct.closeReadOn ConnSide.dst) ∧
    (Pooled.readAndWrite true true [ReadResult.ok [1]] [WriteResult.fail]).halfClose ≠
        some (HalfCloseAct.closeReadOn ConnSide.src) := by
  refine ⟨by decide, by decide, by decide⟩

/-- C4 amended: on every write failure inside the accumulation loop
the pump triggers cancellation and exits without retrying the failed
write (the failing Write call is the last one; the remaining write
script is untouched); the half-close performed depends on the
revision: the legacy pump read-half closes the SOURCE connection if it
is TCP, while the pooled pump read-half closes the DESTINATION
connection if it is TCP; without the capability no half-close
happens. -/
theorem claim4_amended (srcTCP dstTCP : Bool) (rs rs2 : List ReadResult)
    (ws ws2 : List WriteResult) :
    ((Pooled.readAndWrite srcTCP dstTCP rs ws).exitKind = PumpExit.writeFailed →
      (Pooled.readAndWrite srcTCP dstTCP rs ws).halfClose
          = (if dstTCP then some (HalfCloseAct.closeReadOn ConnSide.dst) else none) ∧
        (Pooled.readAndWrite srcTCP dstTCP rs ws).cancelled = true) ∧
    ((Legacy.readAndWrite srcTCP dstTCP rs2 ws2).exitKind = PumpExit.writeFailed →
      (Legacy.readAndWrite srcTCP dstTCP rs2 ws2).halfClose
          = (if srcTCP then some (HalfCloseAct.closeReadOn ConnSide.src) else none) ∧
        (Legacy.readAndWrite srcTCP dstTCP rs2 ws2).cancelled = true) ∧
    ((Pooled.readAndWrite srcTCP dstTCP rs ws).exitKind = PumpExit.writeFailed →
      ∃ pre, ws = pre ++ WriteResult.fail ::
          (Pooled.readAndWrite srcTCP dstTCP rs ws).wsRest ∧
        (∀ x ∈ pre, x ≠ WriteResult.fail) ∧
        (Pooled.readAndWrite srcTCP dstTCP rs ws).writeCalls.length = pre.length + 1) :=
  ⟨pooled_writeFailed_effects rs srcTCP dstTCP ws,
    legacy_writeFailed_effects rs2 srcTCP dstTCP ws2,
    pooled_writeFailed_no_retry rs srcTCP dstTCP ws⟩

/-- C4 witness: a pump whose single-byte chunk hits a failing Write
read-half closes its TCP destination and cancels. -/
theorem claim4_witness :
    (Pooled.readAndWrite true true [ReadResult.ok [1]] [WriteResult.fail]).halfClose
        = (if true then some (HalfCloseAct.closeReadOn ConnSide.dst) else none) ∧
      (Pooled.readAndWrite true true [ReadResult.ok [1]] [WriteResult.fail]).cancelled
        = true :=
  (claim4_amended true true [ReadResult.ok [1]] [ReadResult.ok [1]]
    [WriteResult.fail] [WriteResult.fail]).1 (by decide)

/-- C5: Run returns nil exactly when Accept fails with net.ErrClosed
(the listener closed for shutdown); every other accept failure is
logged and the loop continues; a listener-creation failure makes Run
return that error wrapped; with no closed-listener failure in the
script Run is still looping (it never returns in steady state). -/
theorem claim5_run_error_semantics (p : Proxy) (env : FsEnv)
    (f : Nat → DialResult × SessionScripts) (s : List AcceptResult)
    (e : ListenerError) :
    (p.makeListener env = Except.error e →
      Run p env f s = ⟨RunOutcome.createListenerError e, [], [], 0⟩) ∧
    (p.makeListener env = Except.ok () →
      ((Run p env f s).outcome = RunOutcome.gracefulNil ↔ AcceptResult.fail true ∈ s)) ∧
    (p.makeListener env = Except.ok () → AcceptResult.fail true ∉ s →
      (Run p env f s).outcome = RunOutcome.stillRunning ∧
        (Run p env f s).loggedAcceptErrors = s.count (AcceptResult.fail false) ∧
        (Run p env f s).handledIds = s.filterMap acceptedId) := by
  refine ⟨?_, ?_, ?_⟩
  · intro h
    simp [Run, h]
  · intro h
    simp only [Run, h]
    exact acceptLoop_gracefulNil_iff f s
  · intro h hmem
    simp only [Run, h]
    exact acceptLoop_no_closed f s hmem

/-- C5 witness: with a healthy listener, a script that accepts one
connection, hits one transient error and then the closed-listener
error makes Run return nil, because the closed-listener error is in
the script. -/
theorem claim5_witness :
    (Run tcpProxyDefault envAllOk noSessions
        [AcceptResult.conn 7, AcceptResult.fail false, AcceptResult.fail true]).outcome
          = RunOutcome.gracefulNil ↔
      AcceptResult.fail true ∈
        [AcceptResult.conn 7, AcceptResult.fail false, AcceptResult.fail true] :=
  (claim5_run_error_semantics tcpProxyDefault envAllOk noSessions
    [AcceptResult.conn 7, AcceptResult.fail false, AcceptResult.fail true]
    ListenerError.listenFailed).2.1 rfl

/-- C6: the encryption-terminating listener factory fails with the
configuration error when either path is empty and with the credential
error when the key pair does not load; CreateProxy with encryption
enabled performs neither check, so it succeeds with empty or
unloadable material and the failure surfaces only from Run, which
calls the factory. -/
theorem claim6_tls_factory_errors (env : FsEnv) (cfg : Config)
    (f : Nat → DialResult × SessionScripts) (s : List AcceptResult)
    (certP keyP : String) :
    ((cfg.certFilePath = "" ∨ cfg.keyFilePath = "") →
      tlsListenerFactory env cfg = Except.error ListenerError.emptyCertOrKey) ∧
    (cfg.certFilePath ≠ "" → cfg.keyFilePath ≠ "" →
      env.loadOk cfg.certFilePath cfg.keyFilePath = false →
      tlsListenerFactory env cfg = Except.error ListenerError.loadKeyPairFailed) ∧
    (CreateProxy [WithTlSEnabled true] = Except.ok tlsProxyDefault) ∧
    (∀ p2, CreateProxy [WithTlSEnabled true] = Except.ok p2 →
      Run p2 env f s
        = ⟨RunOutcome.createListenerError ListenerError.emptyCertOrKey, [], [], 0⟩) ∧
    (certP ≠ "" → keyP ≠ "" → env.statOk certP = true → env.statOk keyP = true →
      env.loadOk certP keyP = false →
      ∃ p2, CreateProxy [WithTlSEnabled true, WithCertFilePath env certP,
          WithKeyFilePath env keyP] = Except.ok p2 ∧
        Run p2 env f s
          = ⟨RunOutcome.createListenerError ListenerError.loadKeyPairFailed, [], [], 0⟩) := by
  refine ⟨?_, ?_, ?_, ?_, ?_⟩
  · intro h
    unfold tlsListenerFactory
    rw [if_pos h]
  · intro h1 h2 h3
    unfold tlsListenerFactory
    rw [if_neg (by simp [h1, h2])]
    simp [h3]
  · rfl
  · intro p2 hp2
    have hcp : CreateProxy [WithTlSEnabled true] = Except.ok tlsProxyDefault := rfl
    rw [hcp] at hp2
    injection hp2 with hp2
    subst hp2
    simp [Run, Proxy.makeListener, tlsListenerFactory, tlsProxyDefault, defaultConfig]
  · intro h1 h2 h3 h4 h5
    refine ⟨tlsProxyWith certP keyP, ?_, ?_⟩
    · simp [CreateProxy, applyOpts, WithTlSEnabled, WithCertFilePath, WithKeyFilePath,
        h3, h4, defaultConfig, tlsProxyWith, configTlsWith]
    · simp [Run, Proxy.makeListener, tlsListenerFactory, tlsProxyWith, configTlsWith,
        h1, h2, h5]

/-- C6 witness: with stat succeeding but the key pair unloadable,
CreateProxy with encryption enabled succeeds and Run surfaces the
credential error. -/
theorem claim6_witness :
    ∃ p2, CreateProxy [WithTlSEnabled true, WithCertFilePath envLoadFails certPath0,
        WithKeyFilePath envLoadFails keyPath0] = Except.ok p2 ∧
      Run p2 envLoadFails noSessions []
        = ⟨RunOutcome.createListenerError ListenerError.loadKeyPairFailed, [], [], 0⟩ :=
  (claim6_tls_factory_errors envLoadFails defaultConfig noSessions [] certPath0
    keyPath0).2.2.2.2 (by decide) (by decide) rfl rfl rfl

/-- C7: when the backend dial fails or times out, handle closes the
client connection and returns with no pump started and no backend
connection to release; handle returns nothing, and the accept loop
outcome, the accepted ids and the logged-error count are the same for
any two session tables, so a dial failure never reaches the accept
loop. -/
theorem claim7_dial_failure_contained (scripts : SessionScripts)
    (f g : Nat → DialResult × SessionScripts) (s : List AcceptResult) :
    handle DialResult.failed scripts
        = { clientClosed := true, backendClosed := false, pumpRuns := [],
            cancelConnCalled := true } ∧
      (acceptLoop f s).outcome = (acceptLoop g s).outcome ∧
      (acceptLoop f s).handledIds = (acceptLoop g s).handledIds ∧
      (acceptLoop f s).loggedAcceptErrors = (acceptLoop g s).loggedAcceptErrors :=
  ⟨rfl, acceptLoop_session_independence f g s⟩

/-- C8: in the accumulation loop the written counter starts at 0 and
is monotonically non-decreasing, every Write call happens with
written < n, under the io.Writer contract the loop completes only
with written = n, every Write call receives exactly buf[written:n],
and a failing Write is the last call made, with the rest of the write
script untouched. -/
theorem claim8_write_loop_invariants (ws : List WriteResult) (data : List Nat)
    (written : Nat) :
    ((writeLoop ws data 0).writtenTrace.head? = some 0 ∨
      (writeLoop ws data 0).writtenTrace = []) ∧
    List.Chain' (· ≤ ·) (writeLoop ws data written).writtenTrace ∧
    (∀ x ∈ (writeLoop ws data written).writtenTrace, x < data.length) ∧
    (writesWithinRequest ws data 0 = true →
      (writeLoop ws data 0).outcome = WriteLoopOutcome.complete →
      (writeLoop ws data 0).finalWritten = data.length) ∧
    ((writeLoop ws data written).calls
      = (writeLoop ws data written).writtenTrace.map fun t => data.drop t) ∧
    ((writeLoop ws data written).outcome = WriteLoopOutcome.failed →
      ∃ pre, ws = pre ++ WriteResult.fail :: (writeLoop ws data written).wsRest ∧
        (∀ x ∈ pre, x ≠ WriteResult.fail) ∧
        (writeLoop ws data written).calls.length = pre.length + 1) :=
  ⟨writeLoop_trace_starts_at ws data 0,
    writeLoop_trace_chain ws data written,
    fun x hx => (writeLoop_trace_bounds ws data written x hx).2,
    fun hv hc => writeLoop_finalWritten_of_complete ws data 0 (Nat.zero_le _) hv hc,
    writeLoop_calls_eq_map_drop ws data written,
    writeLoop_failed_decomp ws data written⟩

/-- C8 witness: the loop invariants evaluated on a 5-byte chunk
written in two partial writes. -/
theorem claim8_witness :
    (((writeLoop [WriteResult.ok 2, WriteResult.ok 3] [5, 6, 7, 8, 9] 0).writtenTrace.head?
        = some 0 ∨
      (writeLoop [WriteResult.ok 2, WriteResult.ok 3] [5, 6, 7, 8, 9] 0).writtenTrace = []) ∧
    List.Chain' (· ≤ ·)
      (writeLoop [WriteResult.ok 2, WriteResult.ok 3] [5, 6, 7, 8, 9] 0).writtenTrace ∧
    (∀ x ∈ (writeLoop [WriteResult.ok 2, WriteResult.ok 3] [5, 6, 7, 8, 9] 0).writtenTrace,
      x < ([5, 6, 7, 8, 9] : List Nat).length) ∧
    (writesWithinRequest [WriteResult.ok 2, WriteResult.ok 3] [5, 6, 7, 8, 9] 0 = true →
      (writeLoop [WriteResult.ok 2, WriteResult.ok 3] [5, 6, 7, 8, 9] 0).outcome
        = WriteLoopOutcome.complete →
      (writeLoop [WriteResult.ok 2, WriteResult.ok 3] [5, 6, 7, 8, 9] 0).finalWritten
        = ([5, 6, 7, 8, 9] : List Nat).length) ∧
    ((writeLoop [WriteResult.ok 2, WriteResult.ok 3] [5, 6, 7, 8, 9] 0).calls
      = (writeLoop [WriteResult.ok 2, WriteResult.ok 3] [5, 6, 7, 8, 9] 0).writtenTrace.map
          fun t => ([5, 6, 7, 8, 9] : List Nat).drop t) ∧
    ((writeLoop [WriteResult.ok 2, WriteResult.ok 3] [5, 6, 7, 8, 9] 0).outcome
        = WriteLoopOutcome.failed →
      ∃ pre, [WriteResult.ok 2, WriteResult.ok 3] = pre ++ WriteResult.fail ::
          (writeLoop [WriteResult.ok 2, WriteResult.ok 3] [5, 6, 7, 8, 9] 0).wsRest ∧
        (∀ x ∈ pre, x ≠ WriteResult.fail) ∧
        (writeLoop [WriteResult.ok 2, WriteResult.ok 3] [5, 6, 7, 8, 9] 0).calls.length
          = pre.length + 1)) :=
  claim8_write_loop_invariants [WriteResult.ok 2, WriteResult.ok 3] [5, 6, 7, 8, 9] 0

/-- C9 counterexample: a schedule in which pump 1 hits its error and
cancels, after which handle (task 0) runs to completion — its program
is exhausted, i.e. handle has returned and both connections are closed
— while pump 2 (task 2) is still mid-I/O: handle does return while a
pump is still running. -/
theorem claim9_counterexample :
    (exec (sessionInit 0 1) [1, 1, 0, 0, 0, 0, 0]).tasks[0]? = some [] ∧
    (exec (sessionInit 0 1) [1, 1, 0, 0, 0, 0, 0]).tasks[2]?
      = some [SessAct.ioStep, SessAct.cancelScope, SessAct.wgDone] ∧
    (exec (sessionInit 0 1) [1, 1, 0, 0, 0, 0, 0]).clientClosed = true ∧
    (exec (sessionInit 0 1) [1, 1, 0, 0, 0, 0, 0]).backendClosed = true := by
  refine ⟨by decide, by decide, by decide, by decide⟩

/-- C9 amended: the session reaches its terminal state (the
WaitGroup the session tasks report to has no outstanding Done) only
after all five session tasks — handle, both pumps and both watchers —
have exited; handle itself, however, returns as soon as the session
scope is cancelled, which can happen while a pump is still running
(second conjunct exhibits such a schedule), the deferred closes then
unblocking the remaining pump. -/
theorem claim9_amended (a b : Nat) (sched : List Nat) :
    ((exec (sessionInit a b) sched).wg = 0 →
      ∀ t ∈ (exec (sessionInit a b) sched).tasks, t = []) ∧
    ((exec (sessionInit 0 1) [1, 1, 0, 0, 0, 0, 0]).tasks[0]? = some [] ∧
      (exec (sessionInit 0 1) [1, 1, 0, 0, 0, 0, 0]).tasks[2]? ≠ some []) :=
  ⟨session_wg_zero_all_exited a b sched, by decide⟩

/-- C9 witness: a schedule that drives the whole session to its
terminal state: the WaitGroup reaches zero and every task, the two
pumps included, has exited. -/
theorem claim9_witness :
    (exec (sessionInit 0 0) [1, 1, 2, 2, 0, 0, 0, 0, 0, 3, 3, 3, 4, 4, 4]).wg = 0 ∧
    ∀ t ∈ (exec (sessionInit 0 0) [1, 1, 2, 2, 0, 0, 0, 0, 0, 3, 3, 3, 4, 4, 4]).tasks,
      t = [] :=
  ⟨by decide,
    (claim9_amended 0 0 [1, 1, 2, 2, 0, 0, 0, 0, 0, 3, 3, 3, 4, 4, 4]).1 (by decide)⟩

/-- C10: on any source stream that ends in end-of-stream with no
write failures, the legacy pump (fresh 32 KB buffer) and the pooled
pump (pool buffer of the configured size) deliver the same byte
sequence: any two chunkings of the same payload — the two revisions
may read in different buffer-sized chunks — produce equal sent
streams. -/
theorem claim10_pump_equivalence (srcTCP dstTCP srcTCP2 dstTCP2 : Bool)
    (chunksP chunksL : List (List Nat)) (e1 e2 : IOError)
    (rs1 rs2 : List ReadResult) (ws1 ws2 : List WriteResult)
    (hflat : chunksP.flatten = chunksL.flatten)
    (h1 : (Pooled.readAndWrite srcTCP dstTCP
        (chunksP.map ReadResult.ok ++ ReadResult.fail e1 :: rs1) ws1).exitKind
          = PumpExit.readError e1)
    (h2 : (Legacy.readAndWrite srcTCP2 dstTCP2
        (chunksL.map ReadResult.ok ++ ReadResult.fail e2 :: rs2) ws2).exitKind
          = PumpExit.readError e2) :
    (Pooled.readAndWrite srcTCP dstTCP
        (chunksP.map ReadResult.ok ++ ReadResult.fail e1 :: rs1) ws1).sent
      = (Legacy.readAndWrite srcTCP2 dstTCP2
        (chunksL.map ReadResult.ok ++ ReadResult.fail e2 :: rs2) ws2).sent := by
  rw [pooled_sent_of_readError chunksP srcTCP dstTCP e1 rs1 ws1 h1,
    legacy_sent_of_readError chunksL srcTCP2 dstTCP2 e2 rs2 ws2 h2, hflat]

/-- C10 witness: the payload 1..5 read in 4-byte chunks by the pooled
pump and in 2-byte chunks by the legacy pump is delivered identically
by both. -/
theorem claim10_witness :
    (Pooled.readAndWrite true true
        ([[1, 2, 3, 4], [5]].map ReadResult.ok ++ ReadResult.fail IOError.eof :: [])
        [WriteResult.ok 4, WriteResult.ok 1]).sent
      = (Legacy.readAndWrite true true
        ([[1, 2], [3, 4], [5]].map ReadResult.ok ++ ReadResult.fail IOError.eof :: [])
        [WriteResult.ok 2, WriteResult.ok 2, WriteResult.ok 1]).sent :=
  claim10_pump_equivalence true true true true [[1, 2, 3, 4], [5]] [[1, 2], [3, 4], [5]]
    IOError.eof IOError.eof [] [] [WriteResult.ok 4, WriteResult.ok 1]
    [WriteResult.ok 2, WriteResult.ok 2, WriteResult.ok 1]
    (by decide) (by decide) (by decide)

end TRProxy
